import Mathlib

/-!
Verification of the streaming-event dispatch logic of `src/main.py`
(an agentic RAG Streamlit app). The nominal core is the loop at
lines 143-168: it consumes run events and accumulates
`reasoning_text`, `answer_text` and `citations`, plus the query-submit
guard (lines 121-122, 177-178), the add-URL handler (lines 94-104)
and the citation rendering loop (lines 170-176).
-/

namespace AgenticRag

/-- A citation record: in the source, an object with `url` and an
optional `title` attribute (line 175 reads both). -/
structure Citation where
  url : String
  title : Option String
  deriving DecidableEq, Repr

/-- The `chunk.citations` payload: an object holding a `urls` list
(line 167 reads `chunk.citations.urls`). -/
structure Citations where
  urls : List Citation
  deriving DecidableEq, Repr

/-- The phase tag `chunk.event` compared against
`RunEvent.run_response` and `RunEvent.run_completed` at line 158.
Other members of the enum are collapsed into `other_event`, indexed so
that distinct non-answer phases stay distinct. -/
inductive RunEvent where
  | run_response
  | run_completed
  | other_event (tag : Nat)
  deriving DecidableEq, Repr

/-- The `chunk.content` payload. Line 159 checks
`isinstance(chunk.content, str)`: content may be a string or some
other structured object (modelled only by its Python truthiness). -/
inductive Payload where
  | str (s : String)
  | other (truthy : Bool)
  deriving DecidableEq, Repr

/-- One streamed chunk from `agent.run` (lines 143-148). A field set
to `none` models an absent / `None` attribute. -/
structure RunChunk where
  reasoning_content : Option String
  content : Option Payload
  event : RunEvent
  citations : Option Citations
  deriving DecidableEq, Repr

/-- Python truthiness of a content payload: a string is truthy iff
non-empty; other objects carry their own truthiness. -/
def payloadTruthy : Payload → Bool
  | .str s => s ≠ ""
  | .other b => b

/-- Python truthiness of `chunk.content` (line 158): `None` is falsy. -/
def optPayloadTruthy : Option Payload → Bool
  | some p => payloadTruthy p
  | none => false

/-- `chunk.event in {RunEvent.run_response, RunEvent.run_completed}`
(line 158). -/
def isAnswerEvent : RunEvent → Bool
  | .run_response => true
  | .run_completed => true
  | .other_event _ => false

/-- The Accumulated Answer State: the three locals initialised at
lines 137-139. -/
structure AccState where
  citations : List Citation
  answer_text : String
  reasoning_text : String
  deriving DecidableEq, Repr

/-- The fresh locals `citations = []`, `answer_text = ""`,
`reasoning_text = ""` (lines 137-139). -/
def initState : AccState :=
  { citations := [], answer_text := "", reasoning_text := "" }

/-- Lines 150-151: `if chunk.reasoning_content:` (Python truthiness:
`None` and `""` are falsy) then `reasoning_text = chunk.reasoning_content`. -/
def updReasoning (s : AccState) (chunk : RunChunk) : AccState :=
  match chunk.reasoning_content with
  | some r => if r ≠ "" then { s with reasoning_text := r } else s
  | none => s

/-- Lines 158-160: `if chunk.content and chunk.event in
{RunEvent.run_response, RunEvent.run_completed}:` then
`if isinstance(chunk.content, str): answer_text += chunk.content`. -/
def updAnswer (s : AccState) (chunk : RunChunk) : AccState :=
  if optPayloadTruthy chunk.content && isAnswerEvent chunk.event then
    match chunk.content with
    | some (.str t) => { s with answer_text := s.answer_text ++ t }
    | _ => s
  else s

/-- Lines 167-168: `if chunk.citations and chunk.citations.urls:` then
`citations = chunk.citations.urls`. -/
def updCitations (s : AccState) (chunk : RunChunk) : AccState :=
  match chunk.citations with
  | some cs => if cs.urls ≠ [] then { s with citations := cs.urls } else s
  | none => s

/-- The per-event body of the streaming loop (lines 149-168): the
three guarded updates run in source order on the shared locals. -/
def step (s : AccState) (chunk : RunChunk) : AccState :=
  updCitations (updAnswer (updReasoning s chunk) chunk) chunk

/-- The streaming `for chunk in agent.run(...)` loop (lines 143-168):
one `step` per chunk, in arrival order. -/
def runLoop (s : AccState) : List RunChunk → AccState
  | [] => s
  | c :: cs => runLoop (step s c) cs

/-! ### Projection lemmas: each guarded update touches only its own field. -/

lemma updReasoning_answer_text (s : AccState) (c : RunChunk) :
    (updReasoning s c).answer_text = s.answer_text := by
  unfold updReasoning
  cases c.reasoning_content with
  | none => rfl
  | some r => by_cases h : r = "" <;> simp [h]

lemma updReasoning_citations (s : AccState) (c : RunChunk) :
    (updReasoning s c).citations = s.citations := by
  unfold updReasoning
  cases c.reasoning_content with
  | none => rfl
  | some r => by_cases h : r = "" <;> simp [h]

lemma updAnswer_reasoning_text (s : AccState) (c : RunChunk) :
    (updAnswer s c).reasoning_text = s.reasoning_text := by
  unfold updAnswer
  split
  · cases hc : c.content with
    | none => rfl
    | some p => cases p <;> rfl
  · rfl

lemma updAnswer_citations (s : AccState) (c : RunChunk) :
    (updAnswer s c).citations = s.citations := by
  unfold updAnswer
  split
  · cases hc : c.content with
    | none => rfl
    | some p => cases p <;> rfl
  · rfl

lemma updCitations_answer_text (s : AccState) (c : RunChunk) :
    (updCitations s c).answer_text = s.answer_text := by
  unfold updCitations
  cases c.citations with
  | none => rfl
  | some cs => by_cases h : cs.urls = [] <;> simp [h]

lemma updCitations_reasoning_text (s : AccState) (c : RunChunk) :
    (updCitations s c).reasoning_text = s.reasoning_text := by
  unfold updCitations
  cases c.citations with
  | none => rfl
  | some cs => by_cases h : cs.urls = [] <;> simp [h]

/-! ### Claim C1: answer text is the concatenation of answer-phase
textual deltas. -/

/-- The answer-channel contribution of one chunk, as the spec words
it: the content-delta payload when it is textual and the phase is
RESPONSE or COMPLETED, nothing otherwise. -/
def answerDelta (c : RunChunk) : String :=
  match c.content with
  | some (.str t) => if isAnswerEvent c.event then t else ""
  | _ => ""

/-- In-arrival-order concatenation of the answer deltas of a sequence. -/
def concatDeltas (evs : List RunChunk) : String :=
  evs.foldr (fun c acc => answerDelta c ++ acc) ""

lemma updAnswer_answer_text (s : AccState) (c : RunChunk) :
    (updAnswer s c).answer_text = s.answer_text ++ answerDelta c := by
  unfold updAnswer answerDelta
  cases hc : c.content with
  | none => simp [optPayloadTruthy]
  | some p =>
    cases p with
    | str t =>
      by_cases ht : t = ""
      · subst ht
        simp [optPayloadTruthy, payloadTruthy]
      · by_cases he : isAnswerEvent c.event = true <;>
          simp [optPayloadTruthy, payloadTruthy, ht, he]
    | other b =>
      by_cases hb : b = true <;>
        simp [optPayloadTruthy, payloadTruthy, hb]

lemma step_answer_text (s : AccState) (c : RunChunk) :
    (step s c).answer_text = s.answer_text ++ answerDelta c := by
  unfold step
  rw [updCitations_answer_text, updAnswer_answer_text, updReasoning_answer_text]

lemma runLoop_answer_text (s : AccState) (evs : List RunChunk) :
    (runLoop s evs).answer_text = s.answer_text ++ concatDeltas evs := by
  induction evs generalizing s with
  | nil => simp [runLoop, concatDeltas]
  | cons c cs ih =>
    show (runLoop (step s c) cs).answer_text = _
    rw [ih, step_answer_text]
    show _ = s.answer_text ++ (answerDelta c ++ concatDeltas cs)
    rw [String.append_assoc]

/-- Claim C1: the final `answer_text` is the in-order concatenation of
exactly the textual content deltas whose phase is RESPONSE or
COMPLETED; deltas of other phases and non-string payloads contribute
nothing. -/
theorem c1_answer_text_concat (evs : List RunChunk) :
    (runLoop initState evs).answer_text = concatDeltas evs := by
  rw [runLoop_answer_text]
  rfl

/-! ### Last-write-wins fields: a shared helper. -/

/-- A field of `AccState` that each step overwrites with `v c` when
the guard `g` holds and leaves alone otherwise ends up holding the
value of the last guarded chunk. -/
lemma runLoop_lastWrite {α : Type} (proj : AccState → α) (g : RunChunk → Bool)
    (v : RunChunk → α)
    (hstep : ∀ s c, proj (step s c) = if g c then v c else proj s)
    (s : AccState) (evs : List RunChunk) :
    proj (runLoop s evs) =
      match evs.reverse.find? g with
      | some c => v c
      | none => proj s := by
  induction evs generalizing s with
  | nil => simp [runLoop]
  | cons c cs ih =>
    show proj (runLoop (step s c) cs) = _
    rw [ih]
    have hrev : (c :: cs).reverse = cs.reverse ++ [c] := by simp
    rw [hrev, List.find?_append]
    cases h : cs.reverse.find? g with
    | some d => simp
    | none =>
      by_cases hg : g c = true
      · simp [List.find?, hg, hstep]
      · simp only [Bool.not_eq_true] at hg
        simp [List.find?, hg, hstep]

/-! ### Claim C2: citations hold the last non-empty snapshot. -/

/-- The guard at line 167: the chunk has a citations object with a
non-empty `urls` list. -/
def carriesNonEmptyCitations (c : RunChunk) : Bool :=
  match c.citations with
  | some cs => cs.urls ≠ []
  | none => false

/-- The citation list a chunk carries (empty when absent). -/
def citationSnapshot (c : RunChunk) : List Citation :=
  match c.citations with
  | some cs => cs.urls
  | none => []

/-- The claim's description of the final citations: the citation list
of the last event whose citation list was non-empty, else empty. -/
def specCitations (evs : List RunChunk) : List Citation :=
  match evs.reverse.find? carriesNonEmptyCitations with
  | some c => citationSnapshot c
  | none => []

lemma updCitations_citations (s : AccState) (c : RunChunk) :
    (updCitations s c).citations =
      if carriesNonEmptyCitations c then citationSnapshot c else s.citations := by
  unfold updCitations carriesNonEmptyCitations citationSnapshot
  cases c.citations with
  | none => rfl
  | some cs => by_cases h : cs.urls = [] <;> simp [h]

lemma step_citations (s : AccState) (c : RunChunk) :
    (step s c).citations =
      if carriesNonEmptyCitations c then citationSnapshot c else s.citations := by
  unfold step
  rw [updCitations_citations, updAnswer_citations, updReasoning_citations]

/-- Claim C2: the final `citations` value is the citation list of the
last event that carried a non-empty citation list; if none did, it
stays empty, and an empty citations update never clears earlier ones. -/
theorem c2_citations_last_nonempty (evs : List RunChunk) :
    (runLoop initState evs).citations = specCitations evs := by
  rw [runLoop_lastWrite AccState.citations carriesNonEmptyCitations
    citationSnapshot step_citations]
  rfl

/-! ### Claim C4: reasoning text snapshots. The code's guard
`if chunk.reasoning_content:` is Python truthiness, so an event
carrying an empty-string snapshot does NOT overwrite; the claim as
stated (which includes empty-string snapshots) fails. -/

/-- The guard at line 150 under Python truthiness: the chunk carries a
non-`None`, non-empty reasoning string. -/
def carriesNonEmptyReasoning (c : RunChunk) : Bool :=
  match c.reasoning_content with
  | some r => r ≠ ""
  | none => false

/-- The claim's notion of carrying a reasoning-update field: the field
is present, with any value including the empty string. -/
def carriesReasoning (c : RunChunk) : Bool :=
  c.reasoning_content.isSome

/-- The reasoning string a chunk carries (empty when absent). -/
def reasoningSnapshot (c : RunChunk) : String :=
  c.reasoning_content.getD ""

/-- The claim as stated: `reasoning_text` equals the value of the most
recent event that included a reasoning-update field, empty-string
snapshots included. -/
def specReasoningClaimed (evs : List RunChunk) : String :=
  match evs.reverse.find? carriesReasoning with
  | some c => reasoningSnapshot c
  | none => ""

/-- The amended claim: `reasoning_text` equals the value of the most
recent event carrying a NON-EMPTY reasoning snapshot. -/
def specReasoningAmended (evs : List RunChunk) : String :=
  match evs.reverse.find? carriesNonEmptyReasoning with
  | some c => reasoningSnapshot c
  | none => ""

lemma updReasoning_reasoning_text (s : AccState) (c : RunChunk) :
    (updReasoning s c).reasoning_text =
      if carriesNonEmptyReasoning c then reasoningSnapshot c else s.reasoning_text := by
  unfold updReasoning carriesNonEmptyReasoning reasoningSnapshot
  cases c.reasoning_content with
  | none => rfl
  | some r => by_cases h : r = "" <;> simp [h]

lemma step_reasoning_text (s : AccState) (c : RunChunk) :
    (step s c).reasoning_text =
      if carriesNonEmptyReasoning c then reasoningSnapshot c else s.reasoning_text := by
  unfold step
  rw [updCitations_reasoning_text, updAnswer_reasoning_text, updReasoning_reasoning_text]

/-- A two-event sequence whose second event carries an empty-string
reasoning snapshot. -/
def c4ex : List RunChunk :=
  [{ reasoning_content := some "step1", content := none,
     event := RunEvent.other_event 0, citations := none },
   { reasoning_content := some "", content := none,
     event := RunEvent.other_event 0, citations := none }]

/-- Counterexample to claim C4 as stated: after an event carrying the
empty-string reasoning snapshot, the code keeps the previous snapshot
`step1`, while the claim requires the empty string. -/
theorem c4_counterexample :
    (runLoop initState c4ex).reasoning_text ≠ specReasoningClaimed c4ex := by
  decide

/-- Claim C4 (amended): `reasoning_text` equals the snapshot of the
most recent event carrying a non-empty reasoning value (full overwrite,
not accumulation); events carrying an empty-string snapshot, like
absent fields, leave it unchanged; it stays empty if no event carried
a non-empty value. -/
theorem c4_reasoning_last_nonempty_snapshot (evs : List RunChunk) :
    (runLoop initState evs).reasoning_text = specReasoningAmended evs := by
  rw [runLoop_lastWrite AccState.reasoning_text carriesNonEmptyReasoning
    reasoningSnapshot step_reasoning_text]
  rfl

/-! ### Claim C3: the query-submit guard (lines 121-122 and 177-178).
The code checks `if query:` — Python truthiness — so ONLY the empty
string is rejected; a whitespace-only string is truthy and enters
streaming, contradicting the claim. -/

/-- Outcome of pressing the run button: either a completed streaming
run, or the inline `st.error` message (the spec's ValidationError). -/
inductive SubmitResult where
  | ran (final : AccState)
  | validationError (msg : String)
  deriving DecidableEq, Repr

/-- Lines 121-178: `if query:` run the streaming loop over the fresh
accumulator, `else: st.error("Please enter a question")`. -/
def submit (query : String) (evs : List RunChunk) : SubmitResult :=
  if query ≠ "" then SubmitResult.ran (runLoop initState evs)
  else SubmitResult.validationError "Please enter a question"

/-- Counterexample to claim C3 as stated: the whitespace-only query
`" "` is truthy in Python, so it is NOT rejected — it enters streaming
(here with an empty event stream) instead of raising a validation
error. -/
theorem c3_counterexample :
    " " ≠ "" ∧ " ".toList.all Char.isWhitespace = true
      ∧ submit " " [] = SubmitResult.ran initState := by
  refine ⟨by decide, by decide, rfl⟩

/-- Claim C3 (amended): only a query that is exactly the empty string
is rejected, with the inline error message and without consuming any
event or building any accumulator state (the result does not depend on
the stream); any non-empty query — whitespace-only included — enters
streaming. -/
theorem c3_empty_query_rejected (q : String) (evs : List RunChunk) :
    (q = "" → submit q evs = SubmitResult.validationError "Please enter a question"
      ∧ submit q evs = submit q []) ∧
    (q ≠ "" → submit q evs = SubmitResult.ran (runLoop initState evs)) := by
  constructor
  · intro hq
    subst hq
    exact ⟨rfl, rfl⟩
  · intro hq
    simp [submit, hq]

/-- A chunk used only to instantiate hypotheses at concrete inputs. -/
def exChunk : RunChunk :=
  { reasoning_content := none, content := some (Payload.str "hi"),
    event := RunEvent.run_response, citations := none }

/-- Witness for the amended C3 at concrete inputs: the empty query is
rejected even with a pending stream, and a non-empty query runs. -/
theorem c3_empty_query_rejected_witness :
    (submit "" [exChunk] = SubmitResult.validationError "Please enter a question")
      ∧ submit "?" [] = SubmitResult.ran initState := by
  refine ⟨((c3_empty_query_rejected "" [exChunk]).1 rfl).1, ?_⟩
  have h := (c3_empty_query_rejected "?" []).2 (by decide)
  exact h

/-! ### Claim C5: an error raised mid-stream. The loop body has no
exception handler (lines 142-168), so the iteration stops at the
raising element, the locals accumulated so far are untouched, and the
exception propagates to the UI layer. -/

/-- One element of the producing lazy sequence: either a yielded chunk
or an exception raised while producing the next chunk. -/
inductive StreamItem where
  | ev (c : RunChunk)
  | raised (e : String)
  deriving DecidableEq, Repr

/-- How a streaming run ends: exhaustion of the sequence, or a
propagated exception together with the locals at that moment. -/
inductive RunOutcome where
  | completed (s : AccState)
  | failed (e : String) (s : AccState)
  deriving DecidableEq, Repr

/-- The `for` loop of lines 143-168 over a possibly-raising sequence:
chunks are processed in order; the first raised error aborts the loop,
carrying the accumulated state out unchanged. -/
def runStream (s : AccState) : List StreamItem → RunOutcome
  | [] => RunOutcome.completed s
  | StreamItem.ev c :: rest => runStream (step s c) rest
  | StreamItem.raised e :: _ => RunOutcome.failed e s

lemma runStream_append_events (s : AccState) (evs : List RunChunk)
    (rest : List StreamItem) :
    runStream s (evs.map StreamItem.ev ++ rest) = runStream (runLoop s evs) rest := by
  induction evs generalizing s with
  | nil => rfl
  | cons c cs ih => exact ih (step s c)

/-- Claim C5: if the producing sequence raises after the first `k`
events, the run fails, surfacing the error rather than swallowing it,
and the accumulated state is exactly the state after those `k` events
— partial `answer_text` and `reasoning_text` are preserved, not reset. -/
theorem c5_failure_preserves_partial_state (evs : List RunChunk) (e : String)
    (rest : List StreamItem) :
    runStream initState (evs.map StreamItem.ev ++ StreamItem.raised e :: rest)
      = RunOutcome.failed e (runLoop initState evs) := by
  rw [runStream_append_events]
  rfl

/-! ### Claim C6: `answer_text` only grows. -/

/-- The re-initialisation of the accumulator locals at lines 137-139,
performed at the start of every query run regardless of prior state. -/
def resetState (_prior : AccState) : AccState :=
  { citations := [], answer_text := "", reasoning_text := "" }

/-- Claim C6: every per-event step appends to `answer_text` (possibly
nothing) and never shrinks it; the same holds across any run segment;
the only reset is the re-initialisation at the start of a new query,
which empties it. -/
theorem c6_answer_text_monotone (s : AccState) (c : RunChunk) (evs : List RunChunk) :
    (∃ t, (step s c).answer_text = s.answer_text ++ t) ∧
    (∃ t, (runLoop s evs).answer_text = s.answer_text ++ t) ∧
    (resetState s).answer_text = "" := by
  refine ⟨⟨answerDelta c, step_answer_text s c⟩,
    ⟨concatDeltas evs, runLoop_answer_text s evs⟩, rfl⟩

/-! ### Claim C7: the loop is a pure left fold, so abandoning after
`k` events leaves exactly the prefix state. -/

lemma runLoop_append (s : AccState) (xs ys : List RunChunk) :
    runLoop s (xs ++ ys) = runLoop (runLoop s xs) ys := by
  induction xs generalizing s with
  | nil => rfl
  | cons c cs ih => exact ih (step s c)

/-- Claim C7: processing is a pure left fold over the event list with
no lookahead — the state reached after consuming the first `k` events
of a run equals the state of processing only the prefix `1..k`, and
the rest of the run continues from it. -/
theorem c7_abandonment_pure_fold (s : AccState) (evs : List RunChunk) (k : Nat) :
    runLoop s evs = runLoop (runLoop s (evs.take k)) (evs.drop k) ∧
    runLoop s evs = List.foldl step s evs := by
  constructor
  · conv_lhs => rw [← List.take_append_drop k evs]
    exact runLoop_append s (evs.take k) (evs.drop k)
  · induction evs generalizing s with
    | nil => rfl
    | cons c cs ih => exact ih (step s c)

/-! ### Claim C8: replaying the same sequence after a reset gives the
same final state. -/

lemma resetState_eq_initState (s : AccState) : resetState s = initState := rfl

/-- Claim C8: running a query resets the accumulator, so replaying the
same finite event sequence a second time — from whatever state the
first run left — produces the identical final Accumulated Answer
State. -/
theorem c8_replay_idempotent (s0 : AccState) (evs : List RunChunk) :
    runLoop (resetState (runLoop (resetState s0) evs)) evs
      = runLoop (resetState s0) evs := by
  rw [resetState_eq_initState, resetState_eq_initState]

/-! ### Claim C9: the add-URL handler (lines 94-104). The handler
appends to `knowledge.urls` and calls `knowledge.load(recreate=False,
upsert=True, skip_existing=True)`. The `load` implementation lives in
the third-party knowledge-base library, outside this repository, so
its incremental behaviour is modelled from the spec. -/

/-- The knowledge store: its ordered URL list and, abstractly, the set
of chunk identities currently embedded in the vector index. -/
structure KnowledgeStore where
  urls : List String
  index : List String
  deriving DecidableEq, Repr

/-- Modelled from the spec: the library call `knowledge.load` with
`recreate=false` — the body of `reindex(store, recreate=false)` is not
in this repository. Per the spec, new content is upserted and
documents already present (by content identity) are skipped; nothing
previously indexed is removed. `chunksOf` abstracts the scraping and
chunking of one URL. -/
def reindexIncremental (chunksOf : String → List String)
    (store : KnowledgeStore) : KnowledgeStore :=
  { store with
    index := store.index ++
      ((store.urls.flatMap chunksOf).filter fun ch => decide (ch ∉ store.index)) }

/-- The add-URL button handler (lines 94-106): `if new_url:` append it
to `knowledge.urls` and reload incrementally, else show an inline
error. -/
def addUrlClick (chunksOf : String → List String) (store : KnowledgeStore)
    (new_url : String) : Except String KnowledgeStore :=
  if new_url ≠ "" then
    Except.ok (reindexIncremental chunksOf { store with urls := store.urls ++ [new_url] })
  else Except.error "Please enter a URL"

/-- Claim C9: adding a URL not already in the store and reloading with
`recreate=false` appends it at the end of the URL sequence (so it
occurs exactly once), keeps every previously indexed entry, and the
index gains embeddings for every chunk of the new URL. -/
theorem c9_add_url_incremental (chunksOf : String → List String)
    (store : KnowledgeStore) (url : String)
    (hne : url ≠ "") (hnew : url ∉ store.urls) :
    ∃ s2, addUrlClick chunksOf store url = Except.ok s2 ∧
      s2.urls = store.urls ++ [url] ∧
      s2.urls.count url = 1 ∧
      (∀ e ∈ store.index, e ∈ s2.index) ∧
      (∀ ch ∈ chunksOf url, ch ∈ s2.index) := by
  refine ⟨reindexIncremental chunksOf { store with urls := store.urls ++ [url] },
    by simp [addUrlClick, hne], rfl, ?_, ?_, ?_⟩
  · show List.count url (store.urls ++ [url]) = 1
    rw [List.count_append, List.count_eq_zero.mpr hnew]
    simp
  · intro e he
    exact List.mem_append_left _ he
  · intro ch hch
    show ch ∈ store.index ++ _
    by_cases hin : ch ∈ store.index
    · exact List.mem_append_left _ hin
    · refine List.mem_append_right _ (List.mem_filter.mpr ⟨?_, by simp [hin]⟩)
      exact List.mem_flatMap.mpr ⟨url, by simp, hch⟩

/-- A concrete chunking function for witnesses: one chunk per URL. -/
def exChunksOf : String → List String := fun u => [u ++ "#1"]

/-- A concrete store already holding one URL and its chunk. -/
def exStore : KnowledgeStore := { urls := ["a"], index := ["a#1"] }

/-- Witness for C9 at a concrete store and URL. -/
theorem c9_add_url_incremental_witness :
    ∃ s2, addUrlClick exChunksOf exStore "b" = Except.ok s2 ∧
      s2.urls = exStore.urls ++ ["b"] ∧
      s2.urls.count "b" = 1 ∧
      (∀ e ∈ exStore.index, e ∈ s2.index) ∧
      (∀ ch ∈ exChunksOf "b", ch ∈ s2.index) :=
  c9_add_url_incremental exChunksOf exStore "b" (by decide) (by decide)

/-! ### Claim C10: the citation rendering block (lines 170-176). -/

/-- Python `a or b` on an optional string `a`: yields `a` when truthy
(present and non-empty), else `b` — line 175,
`title = cite.title or cite.url`. -/
def orStr (a : Option String) (b : String) : String :=
  match a with
  | some s => if s ≠ "" then s else b
  | none => b

/-- Lines 170-176: the Sources section is emitted only when the
accumulated citation list is non-empty (`if citations:`), one rendered
`(title, url)` pair per citation. -/
def renderedSources (citations : List Citation) : Option (List (String × String)) :=
  if citations ≠ [] then
    some (citations.map fun c => (orStr c.title c.url, c.url))
  else none

/-- The claim's wording of the displayed title: the citation's title
when present and non-empty, otherwise its url. -/
def specDisplayTitle (c : Citation) : String :=
  match c.title with
  | some t => if t = "" then c.url else t
  | none => c.url

lemma orStr_eq_specDisplayTitle (c : Citation) :
    orStr c.title c.url = specDisplayTitle c := by
  unfold orStr specDisplayTitle
  cases c.title with
  | none => rfl
  | some t => by_cases h : t = "" <;> simp [h]

/-- Claim C10: the citations section is rendered exactly when the
accumulated citation list is non-empty, and each citation is displayed
with its title when that is present and non-empty, otherwise with its
url. -/
theorem c10_citation_rendering (cs : List Citation) (c : Citation) :
    (renderedSources cs = none ↔ cs = []) ∧
    orStr c.title c.url = specDisplayTitle c ∧
    (cs ≠ [] → renderedSources cs = some (cs.map fun d => (specDisplayTitle d, d.url))) := by
  refine ⟨?_, orStr_eq_specDisplayTitle c, ?_⟩
  · unfold renderedSources
    by_cases h : cs = [] <;> simp [h]
  · intro h
    unfold renderedSources
    rw [if_pos h]
    congr 1
    exact List.map_congr_left fun d _ => by
      rw [orStr_eq_specDisplayTitle]

/-- Witness for C10 at a concrete citation list exercising both title
fallback cases and the non-empty rendering branch. -/
theorem c10_citation_rendering_witness :
    (renderedSources [] = none ↔ ([] : List Citation) = []) ∧
    orStr (Citation.mk "u" none).title (Citation.mk "u" none).url
      = specDisplayTitle (Citation.mk "u" none) ∧
    (([{ url := "u", title := some "t" }] : List Citation) ≠ [] →
      renderedSources [{ url := "u", title := some "t" }]
        = some ([{ url := "u", title := some "t" }].map
            fun d => (specDisplayTitle d, d.url))) := by
  refine ⟨(c10_citation_rendering [] (Citation.mk "u" none)).1, ?_, ?_⟩
  · exact (c10_citation_rendering [] (Citation.mk "u" none)).2.1
  · exact (c10_citation_rendering [{ url := "u", title := some "t" }]
      (Citation.mk "u" none)).2.2

end AgenticRag
